import Mathlib

/-!
Verification development for the webpageTTS content script
(chrome-extension/content.js).

The file shallowly embeds the two algorithmic parts of the script:

* the `ReadParagraphTTS` playback controller (cursor advance, highlighting,
  continuous-mode scheduling, sentence chunking in `speak`);
* the `TableOfContents` heading indexer (`collectHeadings`, `computeLevel`,
  `calcIndent`) together with the empty-document behaviour of `init`.

DOM effects are made explicit: a paragraph's `classList` membership of the
highlight class is modelled as a list of highlighted paragraph indices, and
an array access `this.paragraphs[i]` on an out-of-range `i` (which in
JavaScript yields `undefined` and makes the following property access throw
a TypeError) is modelled by a Boolean reporting whether the access was in
range.  JavaScript numbers that carry font sizes are modelled as rationals;
`Math.round` is modelled as round-half-up, which is its semantics on finite
doubles.
-/

namespace WebpageTTS

/-! ## Sentence chunking (ReadParagraphTTS.speak)

The source splits the text with
`text.match(/[^.!?]+[.!?]+|[^.!?]+$/g) || [text]`.
A global match scans left to right.  At each position the first alternative
matches a maximal nonempty run of non-terminal characters followed by a
maximal nonempty run of terminal characters; the second alternative matches
a nonempty run of non-terminal characters extending to the end of the
input.  A position at which neither alternative matches (a terminal
character) is skipped.  `chunkScan` reproduces exactly this scan, and
`speakChunks` adds the `|| [text]` fallback used when there is no match.
-/

/-- Terminal sentence punctuation, the character class `[.!?]` of the
chunking regex in `ReadParagraphTTS.speak`. -/
def isTerm (c : Char) : Bool := c == '.' || c == '!' || c == '?'

/-- All matches of `/[^.!?]+[.!?]+|[^.!?]+$/g` over the text, in order. -/
def chunkScan (l : List Char) : List (List Char) :=
  match l with
  | [] => []
  | c :: cs =>
    if isTerm c then
      chunkScan cs
    else
      ((c :: cs).takeWhile (fun x => !isTerm x)
          ++ ((c :: cs).dropWhile (fun x => !isTerm x)).takeWhile isTerm)
        :: chunkScan (((c :: cs).dropWhile (fun x => !isTerm x)).dropWhile isTerm)
termination_by l.length
decreasing_by
  · simp
  · have key : ∀ (p : Char → Bool) (m : List Char), (m.dropWhile p).length ≤ m.length := by
      intro p m
      induction m with
      | nil => simp
      | cons a as ih =>
        by_cases hp : p a = true
        · simp [List.dropWhile, hp]
          omega
        · simp [List.dropWhile, hp]
    have h1 : (c :: cs).dropWhile (fun x => !isTerm x) = cs.dropWhile (fun x => !isTerm x) := by
      simp [List.dropWhile, *]
    have h2 := key (fun x => !isTerm x) cs
    have h3 := key isTerm ((c :: cs).dropWhile (fun x => !isTerm x))
    simp only [h1, List.length_cons] at h3 ⊢
    omega

/-- The chunk list used by `ReadParagraphTTS.speak`:
`text.match(regex) || [text]`. -/
def speakChunks (text : List Char) : List (List Char) :=
  match chunkScan text with
  | [] => [text]
  | cs => cs

/-! ## String utilities shared by both classes

JavaScript's whitespace class for `trim` and the regex class for the
text normalisation in `getHeadingText` are modelled by Unicode
whitespace. -/

/-- Whitespace test used to model the regex class and `String.prototype.trim`. -/
def isWs (c : Char) : Bool := c.isWhitespace

/-- `String.prototype.trim`: strip whitespace from both ends. -/
def jsTrimChars (l : List Char) : List Char :=
  ((l.dropWhile isWs).reverse.dropWhile isWs).reverse

/-! ## ReadParagraphTTS controller state

Fields of the `ReadParagraphTTS` instance, plus the modelled DOM highlight
state (`highlighted` lists the indices of paragraphs whose `classList`
currently contains `ext-tts-highlight`; `classList.add` is idempotent and
`classList.remove` deletes the class, modelled by `hlAdd`/`hlRemove`). -/

structure TTSState where
  currentParagraphIdx : Nat
  delay : Nat
  isContinuous : Bool
  isRandom : Bool
  paragraphs : List String
  highlighted : List Nat
deriving DecidableEq

/-- DOM `classList.add`: adds the highlight class to paragraph `i` unless
already present. -/
def hlAdd (l : List Nat) (i : Nat) : List Nat := if i ∈ l then l else l ++ [i]

/-- DOM `classList.remove`: removes the highlight class from paragraph `i`. -/
def hlRemove (l : List Nat) (i : Nat) : List Nat := l.erase i

/-- Outcome of one `play()` call.  `accessedIdx` is the index at which
`highlightParagraph` and `speak` read `this.paragraphs`; `speechStarted`
records whether that access was in range — when it is not,
`this.paragraphs[pastParagraphIdx]` is `undefined` and
`highlightParagraph` throws before any speech starts. -/
structure PlayResult where
  state : TTSState
  accessedIdx : Nat
  speechStarted : Bool
deriving DecidableEq

/-- Outcome of one `stopAll()` call.  `accessedIdx` is the index at which
`clearHighlight` reads `this.paragraphs`; `accessOk` records whether that
access was in range (out of range, `clearHighlight` throws — but only
after `isContinuous` has already been set to `false`). -/
structure StopResult where
  state : TTSState
  accessedIdx : Nat
  accessOk : Bool
deriving DecidableEq

namespace ReadParagraphTTS

/-- `ReadParagraphTTS.play`.  `randomIdx` stands for the value
`Math.floor(Math.random() * this.paragraphs.length)` drawn in random mode
(it lies in `[0, paragraphs.length)` whenever the list is nonempty). -/
def play (s : TTSState) (randomIdx : Nat) : PlayResult :=
  let nextParagraphIdx := if s.isRandom then randomIdx else s.currentParagraphIdx + 1
  let pastParagraphIdx := s.currentParagraphIdx
  let s1 : TTSState := { s with currentParagraphIdx := nextParagraphIdx }
  if pastParagraphIdx < s1.paragraphs.length then
    { state := { s1 with highlighted := hlAdd s1.highlighted pastParagraphIdx },
      accessedIdx := pastParagraphIdx,
      speechStarted := true }
  else
    { state := s1, accessedIdx := pastParagraphIdx, speechStarted := false }

/-- The completion callback passed by `play` to `speak`, run when the
speech of paragraph `pastParagraphIdx` finishes: it clears that
paragraph's highlight and, if `isContinuous` holds at this moment,
schedules `setTimeout(() => this.play(), this.delay * 1000)`.  The Boolean
result records whether the timer was scheduled.  The timer callback itself
is `() => this.play()` with no further check, i.e. a firing timer is
exactly a `play` call. -/
def onSpeechEnd (s : TTSState) (pastParagraphIdx : Nat) : TTSState × Bool :=
  ({ s with highlighted := hlRemove s.highlighted pastParagraphIdx }, s.isContinuous)

/-- `ReadParagraphTTS.stopAll`: sets `isContinuous` to `false`, cancels the
speech engine (`stopSpeech`, external), then calls
`clearHighlight(this.currentParagraphIdx)`. -/
def stopAll (s : TTSState) : StopResult :=
  let s1 : TTSState := { s with isContinuous := false }
  if s1.currentParagraphIdx < s1.paragraphs.length then
    { state := { s1 with highlighted := hlRemove s1.highlighted s1.currentParagraphIdx },
      accessedIdx := s1.currentParagraphIdx, accessOk := true }
  else
    { state := s1, accessedIdx := s1.currentParagraphIdx, accessOk := false }

/-- The paragraph collection done in the `ReadParagraphTTS` constructor:
`Array.from(document.querySelectorAll('p')).filter(p => p.innerText.trim().length > 0)`.
The argument lists the `innerText` of every `p` element of the document in
document order. -/
def collectParagraphs (ps : List String) : List String :=
  ps.filter (fun p => !(jsTrimChars p.toList).isEmpty)

/-- The ids of the controls `ReadParagraphTTS.init` creates, in creation
order.  `page` lists the element ids already present in the document
(`createInput`/`createButtons` skip creation when
`document.getElementById` finds the id).  The source `init` never reads
`this.paragraphs`: the controls are created for every document, which is
why the first argument is unused. -/
def initCreatedControls (_paragraphs : List String) (page : List String) : List String :=
  (if "tts-delay-input" ∈ page then [] else ["tts-delay-input"])
    ++ (if "tts-play-btn" ∈ page then [] else ["tts-play-btn"])
    ++ (if "tts-random-btn" ∈ page then [] else ["tts-random-btn"])
    ++ (if "tts-stop-btn" ∈ page then [] else ["tts-stop-btn"])

end ReadParagraphTTS

/-! ## TableOfContents: heading collection and indentation

The DOM subtree rooted at the TOC's article is modelled as the list of
its elements in document order.  Each element carries the data the
indexer reads: its tag name, its `id` attribute (`""` when absent), its
text content, its computed font size (`parseFloat(style.fontSize) || 0`,
so `0` when unresolvable), the number of enclosing `details` ancestors
strictly between it and the article, whether its direct parent is a
`details` element (the selector `details > summary`), and its document
position `pos` (a modelling device making document order explicit). -/

structure DomElement where
  tag : String
  id : String
  textContent : String
  fontSizePx : ℚ
  detailsDepth : Nat
  parentIsDetails : Bool
  pos : Nat
deriving DecidableEq

/-- One entry of `this.headings` as built by
`TableOfContents.collectHeadings`. -/
structure HeadingEntry where
  el : DomElement
  id : String
  level : Nat
  fontSizePx : ℚ
  text : String
deriving DecidableEq

/-- Tag test for the selector `'h1, h2, h3, h4, h5, h6'` and for the
regular expression `/^H[1-6]$/` in `computeLevel`. -/
def isHeadingTag (t : String) : Bool :=
  t == "H1" || t == "H2" || t == "H3" || t == "H4" || t == "H5" || t == "H6"

/-- `parseInt(el.tagName.substring(1), 10)`, evaluated on the heading tags
on which `computeLevel` reaches it. -/
def headingTagLevel (t : String) : Nat :=
  if t == "H1" then 1 else if t == "H2" then 2 else if t == "H3" then 3
  else if t == "H4" then 4 else if t == "H5" then 5 else 6

/-- `getHeadingText`: `(el.textContent || '').trim().replace(/\s+/g, ' ')`.
Whitespace runs collapse to a single space after trimming; the
collapse is realised by first mapping every whitespace character to a
space and then squeezing runs of spaces. -/
def squeezeSpaces : List Char → List Char
  | [] => []
  | [c] => [c]
  | c :: d :: cs =>
    if c == ' ' && d == ' ' then squeezeSpaces (d :: cs)
    else c :: squeezeSpaces (d :: cs)

/-- Normalised visible text of a heading element (`getHeadingText`). -/
def normalizeText (s : String) : String :=
  String.mk (squeezeSpaces ((jsTrimChars s.toList).map (fun c => if isWs c then ' ' else c)))

namespace TableOfContents

/-- `TableOfContents.computeLevel`.  Semantic headings take their level
from the tag; otherwise a nonzero font size is mapped through the fixed
thresholds, and a zero (falsy) font size falls back to
`Math.min(6, 1 + detailsDepth)`. -/
def computeLevel (el : DomElement) : Nat :=
  if isHeadingTag el.tag then headingTagLevel el.tag
  else if el.fontSizePx ≠ 0 then
    (if el.fontSizePx ≥ 30 then 1
     else if el.fontSizePx ≥ 24 then 2
     else if el.fontSizePx ≥ 20 then 3
     else if el.fontSizePx ≥ 18 then 4
     else if el.fontSizePx ≥ 16 then 5
     else 6)
  else min 6 (1 + el.detailsDepth)

/-- The element sequence `all = [...standard, ...custom]` that
`collectHeadings` iterates over: first every semantic heading of the
article in document order, then every `details > summary` element in
document order. -/
def scanOrder (article : List DomElement) : List DomElement :=
  article.filter (fun e => isHeadingTag e.tag)
    ++ article.filter (fun e => e.tag == "SUMMARY" && e.parentIsDetails)

/-- The id-assignment pass of `collectHeadings`: an element keeps its
`id` attribute when present, otherwise it receives
`'toc-auto-' + (++this.idCounter)` (and the id is written back onto the
element).  `ctr` is the current value of `this.idCounter`. -/
def assignIds (ctr : Nat) : List DomElement → List (DomElement × String)
  | [] => []
  | e :: es =>
    if e.id ≠ "" then (e, e.id) :: assignIds ctr es
    else (e, "toc-auto-" ++ toString (ctr + 1)) :: assignIds (ctr + 1) es

/-- The duplicate filter of `collectHeadings`: an element whose
(possibly just assigned) id is already in the `used` set maps to `null`
and is dropped by `.filter(Boolean)`; otherwise its id is added to
`used` and the element is kept. -/
def dedupFirst (used : List String) : List (DomElement × String) → List (DomElement × String)
  | [] => []
  | (e, i) :: rest =>
    if i ∈ used then dedupFirst used rest
    else (e, i) :: dedupFirst (i :: used) rest

/-- `TableOfContents.collectHeadings`: scan, assign ids, deduplicate,
and build the heading entries. -/
def collectHeadings (article : List DomElement) : List HeadingEntry :=
  (dedupFirst [] (assignIds 0 (scanOrder article))).map
    (fun p =>
      { el := p.1, id := p.2, level := computeLevel p.1,
        fontSizePx := p.1.fontSizePx, text := normalizeText p.1.textContent })

/-- The `minFont`/`maxFont` derivation at the end of `collectHeadings`:
`Math.min`/`Math.max` over the positive font sizes of the collected
entries, defaulting to 14 and 32 when there are none. -/
def fontRange (headings : List HeadingEntry) : ℚ × ℚ :=
  match (headings.map (fun h => h.fontSizePx)).filter (fun x => 0 < x) with
  | [] => (14, 32)
  | x :: xs => (xs.foldl min x, xs.foldl max x)

/-- `Math.round` on a finite double: round half toward positive
infinity. -/
def jsRound (x : ℚ) : ℤ := Int.floor (x + 1 / 2)

/-- `TableOfContents.calcIndent`.  `minFont` and `maxFont` stand for
`this.minFont` and `this.maxFont`. -/
def calcIndent (minFont maxFont fontSizePx : ℚ) (level : ℤ) : ℤ :=
  if maxFont = minFont then (level - 1) * 12
  else
    jsRound ((1 - (fontSizePx - minFont) / (maxFont - minFont)) * 24 + (level - 1) * 8)

/-- Modelled from the spec (section 4.1, Indentation formula), for
comparison with `calcIndent`: "if maxFont == minFont, indent =
(level-1) * 12.  Otherwise: ratio = (fontSizePx - minFont) / (maxFont -
minFont); inverted = 1 - ratio; indent = round(inverted * 24 +
(level-1) * 8)". -/
def specIndentFormula (minFont maxFont fontSizePx : ℚ) (level : ℤ) : ℤ :=
  if maxFont = minFont then (level - 1) * 12
  else
    jsRound ((1 - (fontSizePx - minFont) / (maxFont - minFont)) * 24 + (level - 1) * 8)

/-- Outcome of `TableOfContents.init`: the collected headings, and
whether the panel was rendered (`init` returns before `render` when
`this.headings.length` is zero). -/
structure InitResult where
  headings : List HeadingEntry
  rendered : Bool
deriving DecidableEq

/-- `TableOfContents.init` for a non-null article. -/
def init (article : List DomElement) : InitResult :=
  { headings := collectHeadings article,
    rendered := !(collectHeadings article).isEmpty }

end TableOfContents

/-! ## Concrete documents and controller states used as test inputs -/

/-- A fresh controller over a document with three non-empty paragraphs:
the constructor state (`currentParagraphIdx = 0`, `delay = 20`,
continuous on, random off) with no highlight applied yet. -/
def exState : TTSState :=
  { currentParagraphIdx := 0, delay := 20, isContinuous := true, isRandom := false,
    paragraphs := ["First one.", "Second one.", "Third one."], highlighted := [] }

/-- First `play` of the sequential continuous run over `exState`. -/
def seqStep1 : PlayResult := ReadParagraphTTS.play exState 0

/-- State after the speech of paragraph 0 completes. -/
def seqBetween1 : TTSState :=
  (ReadParagraphTTS.onSpeechEnd seqStep1.state seqStep1.accessedIdx).1

/-- Second `play`, fired by the scheduled timer. -/
def seqStep2 : PlayResult := ReadParagraphTTS.play seqBetween1 0

/-- State after the speech of paragraph 1 completes. -/
def seqBetween2 : TTSState :=
  (ReadParagraphTTS.onSpeechEnd seqStep2.state seqStep2.accessedIdx).1

/-- Third `play`, fired by the scheduled timer; speaks the last paragraph. -/
def seqStep3 : PlayResult := ReadParagraphTTS.play seqBetween2 0

/-- State after the speech of paragraph 2 (the last one) completes. -/
def seqBetween3 : TTSState :=
  (ReadParagraphTTS.onSpeechEnd seqStep3.state seqStep3.accessedIdx).1

/-- Fourth `play`, fired by the timer scheduled after the last paragraph. -/
def seqStep4 : PlayResult := ReadParagraphTTS.play seqBetween3 0

/-- A document whose article holds two semantic headings with distinct
pre-existing ids. -/
def capDoc : List DomElement :=
  [{ tag := "H1", id := "intro", textContent := "Intro", fontSizePx := 32,
     detailsDepth := 0, parentIsDetails := false, pos := 0 },
   { tag := "H2", id := "usage", textContent := "Usage", fontSizePx := 24,
     detailsDepth := 0, parentIsDetails := false, pos := 1 }]

/-- A document in which a `details > summary` element (document position 0)
and a semantic heading (document position 1) carry the same `id`
attribute. -/
def dupDoc : List DomElement :=
  [{ tag := "SUMMARY", id := "sec", textContent := "Summary head", fontSizePx := 18,
     detailsDepth := 1, parentIsDetails := true, pos := 0 },
   { tag := "H1", id := "sec", textContent := "Heading", fontSizePx := 32,
     detailsDepth := 0, parentIsDetails := false, pos := 1 }]

/-! Helper lemmas about the chunk scan. -/

theorem dropWhile_dropWhile_same (p : Char → Bool) (l : List Char) :
    (l.dropWhile p).dropWhile p = l.dropWhile p := by
  induction l with
  | nil => rfl
  | cons c cs ih =>
    by_cases h : p c = true
    · simp [List.dropWhile, h, ih]
    · simp [List.dropWhile, h]

theorem chunkScan_flatten (l : List Char) :
    (chunkScan l).flatten = l.dropWhile isTerm := by
  induction l using chunkScan.induct with
  | case1 => simp [chunkScan]
  | case2 c cs h ih =>
    rw [chunkScan, if_pos h, ih, List.dropWhile_cons_of_pos h]
  | case3 c cs h ih =>
    have hr : List.dropWhile isTerm (c :: cs) = c :: cs := by
      simp [List.dropWhile, h]
    rw [chunkScan, if_neg h, List.flatten_cons, ih,
      dropWhile_dropWhile_same, List.append_assoc, List.takeWhile_append_dropWhile,
      List.takeWhile_append_dropWhile, hr]

theorem chunkScan_eq_nil_iff (l : List Char) :
    chunkScan l = [] ↔ l.dropWhile isTerm = [] := by
  induction l using chunkScan.induct with
  | case1 => simp [chunkScan]
  | case2 c cs h ih =>
    rw [chunkScan, if_pos h, ih, List.dropWhile_cons_of_pos h]
  | case3 c cs h ih =>
    have hr : List.dropWhile isTerm (c :: cs) = c :: cs := by
      simp [List.dropWhile, h]
    rw [chunkScan, if_neg h, hr]
    simp

/-! Helper lemmas about the playback controller. -/

theorem play_accessedIdx (s : TTSState) (r : Nat) :
    (ReadParagraphTTS.play s r).accessedIdx = s.currentParagraphIdx := by
  simp only [ReadParagraphTTS.play]
  split <;> rfl

theorem play_speechStarted_iff (s : TTSState) (r : Nat) :
    (ReadParagraphTTS.play s r).speechStarted = true
      ↔ s.currentParagraphIdx < s.paragraphs.length := by
  simp only [ReadParagraphTTS.play]
  split <;> simp_all

theorem play_cursor (s : TTSState) (r : Nat) :
    (ReadParagraphTTS.play s r).state.currentParagraphIdx
      = (if s.isRandom = true then r else s.currentParagraphIdx + 1) := by
  simp only [ReadParagraphTTS.play]
  split <;> rfl

theorem play_paragraphs (s : TTSState) (r : Nat) :
    (ReadParagraphTTS.play s r).state.paragraphs = s.paragraphs := by
  simp only [ReadParagraphTTS.play]
  split <;> rfl

theorem play_isContinuous (s : TTSState) (r : Nat) :
    (ReadParagraphTTS.play s r).state.isContinuous = s.isContinuous := by
  simp only [ReadParagraphTTS.play]
  split <;> rfl

theorem play_highlighted (s : TTSState) (r : Nat) :
    (ReadParagraphTTS.play s r).state.highlighted
      = (if s.currentParagraphIdx < s.paragraphs.length
          then hlAdd s.highlighted s.currentParagraphIdx else s.highlighted) := by
  simp only [ReadParagraphTTS.play]
  split <;> simp_all

theorem stopAll_state (s : TTSState) :
    (ReadParagraphTTS.stopAll s).state
      = { s with
            isContinuous := false,
            highlighted :=
              if s.currentParagraphIdx < s.paragraphs.length
                then hlRemove s.highlighted s.currentParagraphIdx
                else s.highlighted } := by
  simp only [ReadParagraphTTS.stopAll]
  split <;> simp_all

theorem stopAll_accessedIdx (s : TTSState) :
    (ReadParagraphTTS.stopAll s).accessedIdx = s.currentParagraphIdx := by
  simp only [ReadParagraphTTS.stopAll]
  split <;> rfl

theorem stopAll_accessOk_iff (s : TTSState) :
    (ReadParagraphTTS.stopAll s).accessOk = true
      ↔ s.currentParagraphIdx < s.paragraphs.length := by
  simp only [ReadParagraphTTS.stopAll]
  split <;> simp_all

/-! Helper lemmas about the heading collection. -/

theorem assignIds_of_ids_present (l : List DomElement) :
    ∀ ctr : Nat, (∀ e ∈ l, e.id ≠ "") →
      TableOfContents.assignIds ctr l = l.map (fun e => (e, e.id)) := by
  induction l with
  | nil => intro ctr _; rfl
  | cons e es ih =>
    intro ctr h
    have he : e.id ≠ "" := h e (List.mem_cons_self e es)
    rw [TableOfContents.assignIds, if_pos he, List.map_cons,
      ih ctr (fun x hx => h x (List.mem_cons_of_mem e hx))]

theorem dedupFirst_snd_nodup (l : List (DomElement × String)) :
    ∀ used : List String,
      ((TableOfContents.dedupFirst used l).map Prod.snd).Nodup
        ∧ ∀ i ∈ (TableOfContents.dedupFirst used l).map Prod.snd, i ∉ used := by
  induction l with
  | nil =>
    intro used
    simp [TableOfContents.dedupFirst]
  | cons p rest ih =>
    intro used
    obtain ⟨e, i⟩ := p
    by_cases hmem : i ∈ used
    · simpa [TableOfContents.dedupFirst, hmem] using ih used
    · have h2 := ih (i :: used)
      refine ⟨?_, ?_⟩
      · rw [TableOfContents.dedupFirst, if_neg hmem, List.map_cons, List.nodup_cons]
        exact ⟨fun hc => (h2.2 i hc) (List.mem_cons_self i used), h2.1⟩
      · intro j hj
        rw [TableOfContents.dedupFirst, if_neg hmem, List.map_cons, List.mem_cons] at hj
        rcases hj with rfl | hj
        · exact hmem
        · exact fun hc => (h2.2 j hj) (List.mem_cons_of_mem i hc)

theorem dedupFirst_eq_self (l : List (DomElement × String)) :
    ∀ used : List String, (l.map Prod.snd).Nodup → (∀ p ∈ l, p.2 ∉ used) →
      TableOfContents.dedupFirst used l = l := by
  induction l with
  | nil => intro used _ _; rfl
  | cons p rest ih =>
    intro used hd hu
    obtain ⟨e, i⟩ := p
    have hni : i ∉ used := hu (e, i) (List.mem_cons_self _ _)
    rw [List.map_cons, List.nodup_cons] at hd
    have hrest : ∀ q ∈ rest, q.2 ∉ i :: used := by
      intro q hq hmem
      rcases List.mem_cons.mp hmem with heq | hmem2
      · have hqm : q.2 ∈ rest.map Prod.snd := List.mem_map_of_mem Prod.snd hq
        exact hd.1 (heq ▸ hqm)
      · exact hu q (List.mem_cons_of_mem _ hq) hmem2
    rw [TableOfContents.dedupFirst, if_neg hni, ih (i :: used) hd.2 hrest]

theorem collectHeadings_ids (article : List DomElement) :
    (TableOfContents.collectHeadings article).map HeadingEntry.id
      = (TableOfContents.dedupFirst []
          (TableOfContents.assignIds 0 (TableOfContents.scanOrder article))).map Prod.snd := by
  rw [TableOfContents.collectHeadings, List.map_map]
  rfl

/-! ## Claims -/

/-- Claim C1, counterexample.  In the sequential continuous run over three
paragraphs the cursor leaves the range `[0, 3)` while speech is still
active: during the third paragraph's speech (`seqStep3`, which did start
speech) the cursor already equals 3 = `paragraphs.length`.  Since
continuous mode is still on when that speech completes, a timer is
scheduled, and the timer-fired fourth `play` accesses the paragraphs
sequence at the out-of-range index 3 (as would `stopAll` invoked in that
window), contradicting the claim that no such call accesses an
out-of-range index. -/
theorem C1_counterexample :
    seqStep3.speechStarted = true
      ∧ seqStep3.state.currentParagraphIdx = 3
      ∧ seqStep3.state.paragraphs.length = 3
      ∧ (ReadParagraphTTS.onSpeechEnd seqStep3.state seqStep3.accessedIdx).2 = true
      ∧ seqStep4.accessedIdx = 3
      ∧ seqStep4.speechStarted = false
      ∧ (ReadParagraphTTS.stopAll seqBetween3).accessedIdx = 3
      ∧ (ReadParagraphTTS.stopAll seqBetween3).accessOk = false := by
  decide

/-- Claim C1 (amended): `play` accesses the paragraphs sequence at the
pre-call cursor and succeeds in starting speech exactly when that cursor
is in `[0, paragraphs.length)`; sequential `play` then sets the cursor to
its successor, so the cursor equals `paragraphs.length` (out of range)
while the last paragraph's speech is active, and the timer-fired `play`
after it fails at index `paragraphs.length` — that failure, not a bounds
check, is what halts playback.  `stopAll` likewise accesses the
paragraphs sequence at the retained cursor and fails exactly when it is
out of range. -/
theorem C1_amended (s : TTSState) (r : Nat) :
    (ReadParagraphTTS.play s r).accessedIdx = s.currentParagraphIdx
      ∧ ((ReadParagraphTTS.play s r).speechStarted = true
          ↔ s.currentParagraphIdx < s.paragraphs.length)
      ∧ (ReadParagraphTTS.play { s with isRandom := false } r).state.currentParagraphIdx
          = s.currentParagraphIdx + 1
      ∧ (ReadParagraphTTS.stopAll s).accessedIdx = s.currentParagraphIdx
      ∧ ((ReadParagraphTTS.stopAll s).accessOk = true
          ↔ s.currentParagraphIdx < s.paragraphs.length) :=
  ⟨play_accessedIdx s r, play_speechStarted_iff s r,
    by rw [play_cursor]; simp, stopAll_accessedIdx s, stopAll_accessOk_iff s⟩

/-- Claim C2, counterexample.  Paragraph 0's speech completes with
continuous mode on, so a timer is scheduled; `stopAll` is invoked during
the delay window and turns the flag off; yet the timer firing — whose
callback is an unconditional `this.play()` — still starts the next
paragraph's speech. -/
theorem C2_counterexample :
    (ReadParagraphTTS.onSpeechEnd (ReadParagraphTTS.play exState 0).state 0).2 = true
      ∧ (ReadParagraphTTS.stopAll
          (ReadParagraphTTS.onSpeechEnd
            (ReadParagraphTTS.play exState 0).state 0).1).state.isContinuous = false
      ∧ (ReadParagraphTTS.play
          (ReadParagraphTTS.stopAll
            (ReadParagraphTTS.onSpeechEnd
              (ReadParagraphTTS.play exState 0).state 0).1).state 0).speechStarted = true := by
  decide

/-- Claim C2 (amended): the continuous-mode flag is consulted when a
paragraph's speech completes — at timer-scheduling time — not when the
timer fires; the scheduled callback is an unconditional `play`, which
starts speech whenever the cursor is in range regardless of the flag.  A
`stopAll` during the delay window therefore does not suppress the
already-scheduled advance; it only prevents a further timer from being
scheduled when that extra paragraph's speech completes. -/
theorem C2_amended (s : TTSState) (i r : Nat) :
    (ReadParagraphTTS.onSpeechEnd s i).2 = s.isContinuous
      ∧ ((ReadParagraphTTS.play s r).speechStarted = true
          ↔ s.currentParagraphIdx < s.paragraphs.length)
      ∧ (ReadParagraphTTS.onSpeechEnd
          (ReadParagraphTTS.play (ReadParagraphTTS.stopAll s).state r).state i).2 = false := by
  refine ⟨rfl, play_speechStarted_iff s r, ?_⟩
  show (ReadParagraphTTS.play (ReadParagraphTTS.stopAll s).state r).state.isContinuous = false
  rw [play_isContinuous, stopAll_state]

/-- Claim C3, counterexample.  From the fresh state (cursor 0, sequential
mode) `play` selects index 1 (`currentIndex + 1`) and stores it into the
cursor, but the paragraph it highlights and speaks during this same call
is paragraph 0, the pre-call cursor — not the selected one. -/
theorem C3_counterexample :
    (ReadParagraphTTS.play exState 0).state.currentParagraphIdx = 1
      ∧ (ReadParagraphTTS.play exState 0).accessedIdx = 0
      ∧ (ReadParagraphTTS.play exState 0).accessedIdx
          ≠ (ReadParagraphTTS.play exState 0).state.currentParagraphIdx := by
  decide

/-- Claim C3 (amended): every `play` call highlights and speaks the
paragraph at the pre-call cursor (`pastParagraphIdx`); the index selected
for this call — `currentIndex + 1` in sequential mode or the random draw
in random mode — becomes the new cursor, so it is the paragraph a
subsequent `play` will speak, not the one spoken now. -/
theorem C3_amended (s : TTSState) (r : Nat) :
    (ReadParagraphTTS.play s r).accessedIdx = s.currentParagraphIdx
      ∧ (ReadParagraphTTS.play s r).state.currentParagraphIdx
          = (if s.isRandom = true then r else s.currentParagraphIdx + 1)
      ∧ (ReadParagraphTTS.play s r).state.highlighted
          = (if s.currentParagraphIdx < s.paragraphs.length
              then hlAdd s.highlighted s.currentParagraphIdx else s.highlighted) :=
  ⟨play_accessedIdx s r, play_cursor s r, play_highlighted s r⟩

/-- Claim C4, counterexample.  From the fresh state, `play` highlights
paragraph 0 and advances the cursor to 1; invoking `stopAll` while that
speech is in flight clears the highlight at the cursor (paragraph 1, not
highlighted) and leaves the actually highlighted paragraph 0
highlighted, contradicting the claim that `stopAll` removes the
highlight from the highlighted paragraph. -/
theorem C4_counterexample :
    (ReadParagraphTTS.play exState 0).state.highlighted = [0]
      ∧ (ReadParagraphTTS.stopAll
          (ReadParagraphTTS.play exState 0).state).state.highlighted = [0] := by
  decide

/-- Claim C4 (amended): `play` applied from an unhighlighted state
highlights exactly the one paragraph it speaks, but `stopAll` removes the
highlight only from the paragraph at `currentParagraphIdx` — which,
during speech, is the already-advanced cursor, not the speaking
paragraph.  Consequently, after a sequential `play` from a clean state
followed by `stopAll`, the spoken paragraph is still highlighted whenever
its speech had started; its highlight is cleared only by the speech-end
callback. -/
theorem C4_amended (s : TTSState) (r : Nat) :
    (ReadParagraphTTS.stopAll s).state.highlighted
        = (if s.currentParagraphIdx < s.paragraphs.length
            then hlRemove s.highlighted s.currentParagraphIdx else s.highlighted)
      ∧ (ReadParagraphTTS.play s r).state.highlighted
          = (if s.currentParagraphIdx < s.paragraphs.length
              then hlAdd s.highlighted s.currentParagraphIdx else s.highlighted)
      ∧ (ReadParagraphTTS.stopAll
          (ReadParagraphTTS.play
            { s with isRandom := false, highlighted := [] } r).state).state.highlighted
          = (if s.currentParagraphIdx < s.paragraphs.length
              then [s.currentParagraphIdx] else []) := by
  refine ⟨by rw [stopAll_state], play_highlighted s r, ?_⟩
  have herase : hlRemove [s.currentParagraphIdx] (s.currentParagraphIdx + 1)
      = [s.currentParagraphIdx] := by
    rw [hlRemove, List.erase_of_not_mem]
    simp only [List.mem_singleton]
    omega
  rw [stopAll_state]
  simp only [play_cursor, play_paragraphs, play_highlighted]
  by_cases h : s.currentParagraphIdx < s.paragraphs.length
  · simp [h, hlAdd, herase]
  · simp [h, hlRemove]

/-- Claim C5, counterexample.  For the text ".a" the chunking regex finds
the single match "a" (the leading terminal punctuation matches neither
alternative and is skipped), so the concatenation of all chunks is "a",
which differs from the original text. -/
theorem C5_counterexample :
    speakChunks ['.', 'a'] = [['a']]
      ∧ (speakChunks ['.', 'a']).flatten ≠ ['.', 'a'] := by
  have h : speakChunks ['.', 'a'] = [['a']] := by
    simp [speakChunks, chunkScan, isTerm]
  rw [h]
  simp

/-- Claim C5 (amended): concatenating all chunks in order reproduces the
original text with its maximal leading run of terminal punctuation
removed; when the text contains no non-terminal character the regex has
no match and the whole text is used as the single chunk.  The round trip
is therefore exact precisely for texts that do not start with terminal
punctuation or consist entirely of it. -/
theorem C5_amended (l : List Char) :
    (speakChunks l).flatten
        = (if l.dropWhile isTerm = [] then l else l.dropWhile isTerm)
      ∧ ((speakChunks l).flatten = l
          ↔ (l.dropWhile isTerm = l ∨ l.dropWhile isTerm = [])) := by
  have hmain : (speakChunks l).flatten
      = (if l.dropWhile isTerm = [] then l else l.dropWhile isTerm) := by
    cases hsc : chunkScan l with
    | nil =>
      have hdw : l.dropWhile isTerm = [] := (chunkScan_eq_nil_iff l).mp hsc
      have hs2 : speakChunks l = [l] := by rw [speakChunks, hsc]
      rw [hs2, if_pos hdw]
      simp
    | cons a as =>
      have hdw : ¬ l.dropWhile isTerm = [] := by
        intro hc
        exact absurd ((chunkScan_eq_nil_iff l).mpr hc) (by rw [hsc]; simp)
      have hs2 : speakChunks l = chunkScan l := by rw [speakChunks, hsc]
      rw [hs2, if_neg hdw, chunkScan_flatten]
  refine ⟨hmain, ?_⟩
  rw [hmain]
  by_cases hdw : l.dropWhile isTerm = []
  · rw [if_pos hdw]
    simp [hdw]
  · rw [if_neg hdw]
    constructor
    · intro h
      exact Or.inl h
    · intro h
      rcases h with h | h
      · exact h
      · exact absurd h hdw

/-- Claim C6, counterexample.  `collectHeadings` takes no cap: on a
document with two headings it returns two entries, so the collected
sequence is not truncated to at most the first N entries for the cap
value N = 1 (nor for any cap — the constructor accepts only `article`
and `offsetTop`, and the output is independent of any cap). -/
theorem C6_counterexample :
    (TableOfContents.collectHeadings capDoc).length = 2
      ∧ ¬ (TableOfContents.collectHeadings capDoc).length ≤ 1 := by
  decide

/-- Claim C6 (amended): `collectHeadings` accepts no cap on the number of
entries and never truncates: whenever the scanned elements (all semantic
headings in document order followed by all summary-in-details elements)
carry distinct pre-existing ids, the collected sequence has exactly one
entry per scanned element. -/
theorem C6_amended (article : List DomElement)
    (h1 : ∀ e ∈ TableOfContents.scanOrder article, e.id ≠ "")
    (h2 : ((TableOfContents.scanOrder article).map DomElement.id).Nodup) :
    (TableOfContents.collectHeadings article).length
      = (TableOfContents.scanOrder article).length := by
  have ha := assignIds_of_ids_present (TableOfContents.scanOrder article) 0 h1
  have hsnd : (TableOfContents.assignIds 0 (TableOfContents.scanOrder article)).map Prod.snd
      = (TableOfContents.scanOrder article).map DomElement.id := by
    rw [ha, List.map_map]
    rfl
  have hd : ((TableOfContents.assignIds 0
      (TableOfContents.scanOrder article)).map Prod.snd).Nodup := by
    rw [hsnd]
    exact h2
  have hde := dedupFirst_eq_self
    (TableOfContents.assignIds 0 (TableOfContents.scanOrder article)) [] hd
    (fun p _ hc => absurd hc (List.not_mem_nil _))
  rw [TableOfContents.collectHeadings, hde, List.length_map, ha, List.length_map]

/-- Claim C6, witness for the amended theorem at the concrete two-heading
document. -/
theorem C6_amended_witness :
    (TableOfContents.collectHeadings capDoc).length
      = (TableOfContents.scanOrder capDoc).length :=
  C6_amended capDoc (by decide) (by decide)

/-- Claim C7 (confirmed): `calcIndent` coincides with the specified
formula — `(level-1) * 12` when `maxFont = minFont`, otherwise
`round((1 - (fontSizePx - minFont)/(maxFont - minFont)) * 24 +
(level-1) * 8)` — and on the scenario (minFont 16, maxFont 32) the font
sizes 32, 24, 16 at levels 1, 2, 3 yield indents 0, 20 and 40. -/
theorem C7_calcIndent (minF maxF f : ℚ) (lv : ℤ) :
    TableOfContents.calcIndent minF maxF f lv
        = TableOfContents.specIndentFormula minF maxF f lv
      ∧ TableOfContents.calcIndent 16 32 32 1 = 0
      ∧ TableOfContents.calcIndent 16 32 24 2 = 20
      ∧ TableOfContents.calcIndent 16 32 16 3 = 40 := by
  refine ⟨rfl, ?_, ?_, ?_⟩ <;>
    norm_num [TableOfContents.calcIndent, TableOfContents.jsRound]

/-- Claim C8, counterexample.  In `dupDoc` a summary element at document
position 0 and a heading at document position 1 share the id "sec"; the
scan visits semantic headings before summaries, so the kept occurrence is
the heading at position 1 — not the first occurrence in document order
(position 0). -/
theorem C8_counterexample :
    dupDoc.map DomElement.id = ["sec", "sec"]
      ∧ dupDoc.map DomElement.pos = [0, 1]
      ∧ (TableOfContents.collectHeadings dupDoc).map (fun h => h.el.pos) = [1] := by
  decide

/-- Claim C8 (amended): the collected entries' id values are pairwise
distinct, elements lacking an id are assigned a synthetic one before the
duplicate check, and among elements sharing an id the kept occurrence is
the first in scan order — all semantic headings in document order
followed by all summary elements in document order — which matches
document order within each selector group but not across the two
groups. -/
theorem C8_amended (article : List DomElement) :
    ((TableOfContents.collectHeadings article).map HeadingEntry.id).Nodup := by
  rw [collectHeadings_ids]
  exact (dedupFirst_snd_nodup _ []).1

/-- Claim C9, counterexample.  On a document with no headings the
TableOfContents indeed declines to render, but the ReadParagraphTTS
`init` never consults `this.paragraphs`: with no non-empty paragraph it
still creates the delay input and the play, random and stop buttons,
contradicting the claim that no buttons or input controls are created. -/
theorem C9_counterexample :
    (TableOfContents.init []).rendered = false
      ∧ ReadParagraphTTS.collectParagraphs ["", "   "] = []
      ∧ ReadParagraphTTS.initCreatedControls
          (ReadParagraphTTS.collectParagraphs ["", "   "]) []
          = ["tts-delay-input", "tts-play-btn", "tts-random-btn", "tts-stop-btn"] := by
  decide

/-- Claim C9 (amended): on empty input the TableOfContents declines to
initialize further — the panel is rendered exactly when the collected
heading list is non-empty — while the ReadParagraphTTS controller creates
its four controls unconditionally, whatever the paragraph list; the
creations are independent, so the other augmentations still run. -/
theorem C9_amended (article : List DomElement) (paras : List String) :
    ((TableOfContents.init article).rendered = true
        ↔ TableOfContents.collectHeadings article ≠ [])
      ∧ ReadParagraphTTS.initCreatedControls paras []
          = ["tts-delay-input", "tts-play-btn", "tts-random-btn", "tts-stop-btn"] := by
  constructor
  · rw [TableOfContents.init]
    simp
  · simp [ReadParagraphTTS.initCreatedControls]

/-- Claim C10 (confirmed): `stopAll` changes only the continuous-mode
flag (to `false`) and the highlight presentation; the cursor, the
paragraph list, the random flag and the delay are untouched, and a
subsequent `play` speaks the paragraph at the retained cursor
position. -/
theorem C10_stopAll_frame (s : TTSState) (r : Nat) :
    (ReadParagraphTTS.stopAll s).state.currentParagraphIdx = s.currentParagraphIdx
      ∧ (ReadParagraphTTS.stopAll s).state.paragraphs = s.paragraphs
      ∧ (ReadParagraphTTS.stopAll s).state.isRandom = s.isRandom
      ∧ (ReadParagraphTTS.stopAll s).state.delay = s.delay
      ∧ (ReadParagraphTTS.stopAll s).state.isContinuous = false
      ∧ (ReadParagraphTTS.play (ReadParagraphTTS.stopAll s).state r).accessedIdx
          = s.currentParagraphIdx := by
  rw [play_accessedIdx, stopAll_state]
  exact ⟨rfl, rfl, rfl, rfl, rfl, rfl⟩

end WebpageTTS
